import Mathlib

/-!
# Verification development for the ScanRappel client-side pipeline

Shallow embedding of the algorithmic slice of the repository:

* the resilient call executor (in-memory time-boxed cache + retry with
  exponential backoff) from `openai.ts` (`getBackoffTime`,
  `generateCacheKey`, `getCachedResponse`, `setCachedResponse`,
  `withRetry`);
* media ingestion with local base64 fallback (`uploadImageToFirebase`,
  `imageToBase64`);
* the heuristic field extractor (`extractFromResponse`) together with a
  small executable model of the JavaScript regular expressions it uses;
* the product-analysis pipeline (`analyzeProductImage`);
* the history store (`saveScanHistory`, `getScanHistory`) from
  `productService.ts`.

External effects (Firebase, AsyncStorage, the OpenAI endpoint, the file
system, `Date.now()`, `Math.random()`) are modelled as explicit
environment parameters; thrown JavaScript exceptions are modelled with
`Except`.  JavaScript truthiness, which the source relies on in several
places (`if (cached)`, `if (cacheKey)`, `if (!userId)`, `x || 'Not
available'`), is modelled explicitly.
-/

namespace ScanRappel

/-- A JavaScript runtime value, as far as truthiness and identity are
concerned.  `vObj` stands for an arbitrary (always truthy) object and
`vErr` for an `Error` object carrying its message. -/
inductive JSVal : Type where
  | vNull : JSVal
  | vUndefined : JSVal
  | vBool : Bool → JSVal
  | vNum : Int → JSVal
  | vStr : String → JSVal
  | vObj : Nat → JSVal
  | vErr : String → JSVal
  deriving DecidableEq, Repr

/-- JavaScript truthiness: `null`, `undefined`, `false`, `0` and `""` are
falsy; every object (including `Error`s) is truthy. -/
def JSVal.truthy : JSVal → Bool
  | .vNull => false
  | .vUndefined => false
  | .vBool b => b
  | .vNum n => n != 0
  | .vStr s => s != ""
  | .vObj _ => true
  | .vErr _ => true

/-- Truthiness of a `string | null` value (an absent or empty string is
falsy), used for the `if (cacheKey)` tests in `withRetry`. -/
def jsStrOptTruthy : Option String → Bool
  | none => false
  | some s => s != ""

/-! ## Resilient call executor: cache and backoff (`openai.ts`) -/

/-- Source `interface CacheEntry { timestamp: number; response: any }`. -/
structure CacheEntry (V : Type) where
  timestamp : Nat
  response : V
  deriving Repr

/-- The in-memory `responseCache : Record<string, CacheEntry>`. -/
def Cache (V : Type) : Type := String → Option (CacheEntry V)

/-- The cache at process start: no entries. -/
def emptyCache {V : Type} : Cache V := fun _ => none

/-- Source `const CACHE_EXPIRY = 24 * 60 * 60 * 1000` (24 hours in ms). -/
def CACHE_EXPIRY : Nat := 24 * 60 * 60 * 1000

/-- Source `getBackoffTime(retries)`: exponential backoff with jitter,
`Math.min(Math.pow(2, retries) * (0.5 + Math.random()) * 1000, 30000)`.
The uniform draw `Math.random()` is exposed as the parameter `u`. -/
def getBackoffTime (retries : Nat) (u : ℚ) : ℚ :=
  min ((2 : ℚ) ^ retries * ((1 : ℚ) / 2 + u) * 1000) 30000

/-- JSON string escaping as performed by `JSON.stringify` on a string
value: backslash, quote, and the common control characters get two-char
escapes, all remaining control characters get `\u00XX` escapes. -/
def jsonEscapeChar (c : Char) : List Char :=
  if c = '\\' then ['\\', '\\']
  else if c = '"' then ['\\', '"']
  else if c = '\n' then ['\\', 'n']
  else if c = '\r' then ['\\', 'r']
  else if c = '\t' then ['\\', 't']
  else if c.toNat = 8 then ['\\', 'b']
  else if c.toNat = 12 then ['\\', 'f']
  else if c.toNat < 32 then
    ['\\', 'u', '0', '0', Nat.digitChar (c.toNat / 16), Nat.digitChar (c.toNat % 16)]
  else [c]

/-- Source `JSON.stringify` applied to a string parameter. -/
def jsonStringifyString (s : String) : String :=
  ⟨'"' :: (s.data.flatMap jsonEscapeChar) ++ ['"']⟩

/-- Source `generateCacheKey(functionName, params)` =
`` `${functionName}:${JSON.stringify(params)}` `` for a string parameter. -/
def generateCacheKey (functionName : String) (params : String) : String :=
  functionName ++ ":" ++ jsonStringifyString params

/-- Source `getCachedResponse(cacheKey)`: returns the stored response when the
entry exists and `Date.now() - cached.timestamp < CACHE_EXPIRY`, and
`null` (here `none`) otherwise.  Subtraction is over `Int`, mirroring
JavaScript number subtraction. -/
def getCachedResponse {V : Type} (cache : Cache V) (now : Nat) (cacheKey : String) :
    Option V :=
  match cache cacheKey with
  | some cached =>
      if (now : Int) - (cached.timestamp : Int) < (CACHE_EXPIRY : Int) then
        some cached.response
      else
        none
  | none => none

/-- Source `setCachedResponse(cacheKey, response)`: store the response with the
current timestamp. -/
def setCachedResponse {V : Type} (cache : Cache V) (now : Nat) (cacheKey : String)
    (response : V) : Cache V :=
  fun k => if k = cacheKey then some ⟨now, response⟩ else cache k

/-- The `if (cacheKey) { setCachedResponse(cacheKey, result) }` step of
`withRetry` (note the truthiness test: an empty-string key stores
nothing). -/
def maybeCache {V : Type} (cache : Cache V) (now : Nat) (cacheKey : Option String)
    (response : V) : Cache V :=
  match cacheKey with
  | some key => if key = "" then cache else setCachedResponse cache now key response
  | none => cache

/-- Observable outcome of one `withRetry` execution: the value returned
or the exception finally thrown, how many times the wrapped operation
`fn` was invoked, the list of retry indices `n` for which a backoff wait
`getBackoffTime(n)` was performed (in order), and the cache after the
call. -/
structure RetryOutcome (V : Type) where
  result : Except JSVal V
  calls : Nat
  waits : List Nat
  cache : Cache V

/-- The `while (true)` loop of `withRetry`.  `fn i` is the outcome of the
i-th invocation of the wrapped operation (`i = retries` at the time of
the call); `fuel` is `maxRetries - retries + 1`, the number of attempts
still permitted, so the `0` case is unreachable from `withRetry`. -/
def retryLoop {V : Type} (fn : Nat → Except JSVal V) (cacheKey : Option String)
    (maxRetries now : Nat) (cache : Cache V) (retries : Nat) :
    Nat → RetryOutcome V
  | 0 => ⟨.error (.vErr "out of fuel"), 0, [], cache⟩
  | fuel + 1 =>
      match fn retries with
      | .ok result =>
          ⟨.ok result, 1, [], maybeCache cache now cacheKey result⟩
      | .error e =>
          if maxRetries ≤ retries then
            ⟨.error e, 1, [], cache⟩
          else
            let rest := retryLoop fn cacheKey maxRetries now cache (retries + 1) fuel
            ⟨rest.result, rest.calls + 1, (retries + 1) :: rest.waits, rest.cache⟩

/-- Source `withRetry(fn, cacheKey, maxRetries)`.  The cache lookup honours the
source's truthiness tests: the key must be a nonempty string
(`if (cacheKey)`) and the cached response itself must be truthy
(`if (cached) return cached`), truthiness of a `V` being supplied by
`tr`. -/
def withRetry {V : Type} (tr : V → Bool) (fn : Nat → Except JSVal V)
    (cacheKey : Option String) (maxRetries now : Nat) (cache : Cache V) :
    RetryOutcome V :=
  let hit : Option V :=
    match cacheKey with
    | some key =>
        if key = "" then none
        else
          match getCachedResponse cache now key with
          | some v => if tr v then some v else none
          | none => none
    | none => none
  match hit with
  | some v => ⟨.ok v, 0, [], cache⟩
  | none => retryLoop fn cacheKey maxRetries now cache 0 (maxRetries + 1)

/-! ## An executable model of the JavaScript regular expressions used

The extractor builds its patterns with `new RegExp(...)` from a fixed set
of shapes.  We model exactly the constructs those patterns use: literal
runs, single-character classes, ordered alternation, greedy and lazy
repetition, one capturing group, lookahead, `$`, and a leading `^` under
the `m` flag (handled by the search driver).  Matching is
backtracking-based and candidate lists are produced in JavaScript's
backtracking priority order, so the head of the list is the match
`String.prototype.match` would report at that start position. -/

/-- JavaScript `\s` (also the character set trimmed by
`String.prototype.trim`). -/
def jsSpace (c : Char) : Bool :=
  c = ' ' || c = '\t' || c = '\n' || c = '\r' ||
  c.toNat = 11 || c.toNat = 12 || c.toNat = 160 ||
  c.toNat = 0xfeff || c.toNat = 0x2028 || c.toNat = 0x2029

/-- JavaScript `\d`. -/
def jsDigit (c : Char) : Bool :=
  '0' ≤ c && c ≤ '9'

/-- Regular-expression abstract syntax (only the constructs appearing in
the source's patterns). -/
inductive RE : Type where
  | eps : RE
  | lit : List Char → RE
  | cls : (Char → Bool) → RE
  | seq : RE → RE → RE
  | alt : RE → RE → RE
  | star : RE → RE
  | lazystar : RE → RE
  | grp : RE → RE
  | look : RE → RE
  | eos : RE

/-- Structural size of a regular expression, used to bound the depth of
the backtracking search. -/
def RE.size : RE → Nat
  | .eps => 1
  | .eos => 1
  | .lit _ => 1
  | .cls _ => 1
  | .seq a b => a.size + b.size + 1
  | .alt a b => a.size + b.size + 1
  | .star r => r.size + 1
  | .lazystar r => r.size + 1
  | .grp r => r.size + 1
  | .look r => r.size + 1

/-- Case-insensitive character comparison (the `i` flag canonicalises by
case folding). -/
def ciEqChar (ci : Bool) (p c : Char) : Bool :=
  p = c || (ci && p.toLower = c.toLower)

/-- Does the literal run `p` occur at the head of `s`? -/
def litTake (ci : Bool) : List Char → List Char → Bool
  | [], _ => true
  | _ :: _, [] => false
  | p :: ps, c :: cs => ciEqChar ci p c && litTake ci ps cs

/-- Single-character class membership; under the `i` flag a class also
accepts the other-case variant of its members. -/
def clsMatch (ci : Bool) (p : Char → Bool) (c : Char) : Bool :=
  p c || (ci && (p c.toLower || p c.toUpper))

/-- Combine group-1 captures of two sequenced sub-matches (a later
capture overwrites an earlier one; in the source's patterns the group
appears exactly once, so at most one side is set). -/
def capJoin (a b : Option (List Char)) : Option (List Char) :=
  match b with
  | some x => some x
  | none => a

/-- All ways `re` can match a prefix of `s`, as pairs of (number of
characters consumed, group-1 capture), listed in backtracking priority
order: greedy stars longest-first, lazy stars shortest-first, ordered
alternation left-first.  `fuel` bounds the recursion depth; `matchFuel`
below always supplies enough. -/
def reMatch (ci : Bool) : Nat → RE → List Char → List (Nat × Option (List Char))
  | 0, _, _ => []
  | _ + 1, .eps, _ => [(0, none)]
  | _ + 1, .eos, s => if s.isEmpty then [(0, none)] else []
  | _ + 1, .lit p, s => if litTake ci p s then [(p.length, none)] else []
  | _ + 1, .cls p, s =>
      match s with
      | [] => []
      | c :: _ => if clsMatch ci p c then [(1, none)] else []
  | fuel + 1, .seq a b, s =>
      (reMatch ci fuel a s).flatMap fun nc =>
        (reMatch ci fuel b (s.drop nc.1)).map fun mc => (nc.1 + mc.1, capJoin nc.2 mc.2)
  | fuel + 1, .alt a b, s => reMatch ci fuel a s ++ reMatch ci fuel b s
  | fuel + 1, .star r, s =>
      (((reMatch ci fuel r s).filter fun nc => nc.1 != 0).flatMap fun nc =>
        (reMatch ci fuel (.star r) (s.drop nc.1)).map fun mc =>
          (nc.1 + mc.1, capJoin nc.2 mc.2)) ++ [(0, none)]
  | fuel + 1, .lazystar r, s =>
      (0, none) :: (((reMatch ci fuel r s).filter fun nc => nc.1 != 0).flatMap fun nc =>
        (reMatch ci fuel (.lazystar r) (s.drop nc.1)).map fun mc =>
          (nc.1 + mc.1, capJoin nc.2 mc.2))
  | fuel + 1, .grp r, s =>
      (reMatch ci fuel r s).map fun nc => (nc.1, some (s.take nc.1))
  | fuel + 1, .look r, s =>
      if (reMatch ci fuel r s).isEmpty then [] else [(0, none)]

/-- Sufficient backtracking depth: along every recursive path of
`reMatch` either the expression shrinks or (for a star iteration) at
least one character is consumed, so `size * (length + 2) + 1` levels
always suffice. -/
def matchFuel (r : RE) (s : List Char) : Nat :=
  r.size * (s.length + 2) + 1

/-- One of the source's compiled patterns: the `i` flag, whether it is
anchored by a leading `^` under the `m` flag, and the expression after
that anchor. -/
structure JSPattern where
  ci : Bool
  anchored : Bool
  re : RE

/-- Is a position preceded by `prev` a line start (for `^` with `m`)? -/
def atLineStart (prev : Option Char) : Bool :=
  prev.isNone || prev = some '\n'

/-- Scan start positions left to right, attempting the pattern at each
admissible one; returns `(match[0], match[1])` of the first success,
mirroring `String.prototype.match` for a non-global pattern. -/
def reSearchAux (p : JSPattern) : Option Char → List Char →
    Option (List Char × Option (List Char))
  | prev, [] =>
      if p.anchored && !atLineStart prev then none
      else ((reMatch p.ci (matchFuel p.re []) p.re []).head?).map fun nc =>
        (([] : List Char).take nc.1, nc.2)
  | prev, c :: rest =>
      let s := c :: rest
      let attempt :=
        if p.anchored && !atLineStart prev then none
        else (reMatch p.ci (matchFuel p.re s) p.re s).head?
      match attempt with
      | some nc => some (s.take nc.1, nc.2)
      | none => reSearchAux p (some c) rest

/-- Source `text.match(pattern)` for a non-global pattern, reduced to the two
components the source reads: `match[0]` and `match[1]`. -/
def patMatch (p : JSPattern) (text : List Char) :
    Option (List Char × Option (List Char)) :=
  reSearchAux p none text

/-- Source `String.prototype.split` on a regular expression separator (none of
the source's separators can match the empty string).  The fuel is the
input length plus one; every step consumes at least one character. -/
def jsSplitAux (r : RE) (ci : Bool) : Nat → List Char → List Char → List (List Char)
  | 0, acc, s => [acc.reverse ++ s]
  | _ + 1, acc, [] => [acc.reverse]
  | fuel + 1, acc, c :: rest =>
      match ((reMatch ci (matchFuel r (c :: rest)) r (c :: rest)).filter
          fun nc => nc.1 != 0).head? with
      | some nc => acc.reverse :: jsSplitAux r ci fuel [] ((c :: rest).drop nc.1)
      | none => jsSplitAux r ci fuel (c :: acc) rest

/-- Source `text.split(pattern)`. -/
def jsSplit (p : JSPattern) (text : List Char) : List (List Char) :=
  jsSplitAux p.re p.ci (text.length + 1) [] text

/-- Source `String.prototype.trim`. -/
def jsTrim (s : List Char) : List Char :=
  ((s.dropWhile fun c => jsSpace c).reverse.dropWhile fun c => jsSpace c).reverse

/-- Source `String.prototype.toLowerCase`. -/
def jsToLower (s : List Char) : List Char :=
  s.map Char.toLower

/-- Source `hay.includes(needle)` (case-sensitive substring test). -/
def listIncludes (needle : List Char) : List Char → Bool
  | [] => litTake false needle []
  | c :: rest => litTake false needle (c :: rest) || listIncludes needle rest

/-! ### The concrete patterns of `extractFromResponse` -/

/-- Right-nested sequencing of a pattern list. -/
def reSeqList : List RE → RE
  | [] => RE.eps
  | [r] => r
  | r :: rest => .seq r (reSeqList rest)

/-- Right-nested ordered alternation of a pattern list. -/
def reAltList : List RE → RE
  | [] => RE.eps
  | [r] => r
  | r :: rest => .alt r (reAltList rest)

/-- A literal string pattern. -/
def reStr (s : String) : RE := .lit s.data

/-- Source `X+` as `X X*`. -/
def rePlus (r : RE) : RE := .seq r (.star r)

/-- Source `X?` (greedy: presence preferred). -/
def reOpt (r : RE) : RE := .alt r .eps

/-- Source `X+?` as `X X*?` (lazy). -/
def reLazyPlus (r : RE) : RE := .seq r (.lazystar r)

/-- Source `\s*`. -/
def wsStar : RE := .star (.cls jsSpace)

/-- Source `\s+`. -/
def wsPlus : RE := rePlus (.cls jsSpace)

/-- Source `[^\n]`. -/
def notNl : RE := .cls fun c => c != '\n'

/-- Source `[\s\S]` (any character). -/
def anyChar : RE := .cls fun _ => true

/-- The structural pattern family tried first for each key, in source
order: `Key: v`, `Key - v`, `Key = v`, `Key content: v`,
`Key information: v`, `**Key**: v`, `<Key>v</Key>`, line-anchored
`^\s*Key: v` (flags `im`), and table-row `| Key | v |`.  All carry the
`i` flag. -/
def structuralPatterns (key : List Char) : List JSPattern :=
  let k := RE.lit key
  [ ⟨true, false, reSeqList [k, wsStar, reStr ":", wsStar, .grp (rePlus notNl)]⟩,
    ⟨true, false, reSeqList [k, wsStar, reStr "-", wsStar, .grp (rePlus notNl)]⟩,
    ⟨true, false, reSeqList [k, wsStar, reStr "=", wsStar, .grp (rePlus notNl)]⟩,
    ⟨true, false, reSeqList [k, wsStar, reStr "content", wsStar, reStr ":", wsStar,
      .grp (rePlus notNl)]⟩,
    ⟨true, false, reSeqList [k, wsStar, reStr "information", wsStar, reStr ":", wsStar,
      .grp (rePlus notNl)]⟩,
    ⟨true, false, reSeqList [reStr "**", k, reStr "**", wsStar, reStr ":", wsStar,
      .grp (rePlus notNl)]⟩,
    ⟨true, false, reSeqList [reStr "<", k, reStr ">", .grp (rePlus (.cls fun c => c != '<')),
      reStr "</", k, reStr ">"]⟩,
    ⟨true, true, reSeqList [wsStar, k, wsStar, reStr ":", wsStar, .grp (rePlus notNl)]⟩,
    ⟨true, false, reSeqList [reStr "|", wsStar, k, wsStar, reStr "|", wsStar,
      .grp (rePlus (.cls fun c => c != '|' && c != '\n')), wsStar, reStr "|"]⟩ ]

/-- The character class `[•\-\*\d+\.]` of the first bullet pattern. -/
def bulletChar (c : Char) : Bool :=
  c = '•' || c = '-' || c = '*' || jsDigit c || c = '+' || c = '.'

/-- The bullet/numbered-list pattern family, in source order:
`[•\-\*\d+\.]+\s*Key:? v`, `[•\-\*]\s*Key: v`, `\d+\.\s*Key: v` (all
with the `i` flag). -/
def bulletPatterns (key : List Char) : List JSPattern :=
  let k := RE.lit key
  [ ⟨true, false, reSeqList [rePlus (.cls bulletChar), wsStar, k, wsStar, reOpt (reStr ":"),
      wsStar, .grp (rePlus notNl)]⟩,
    ⟨true, false, reSeqList [.cls (fun c => c = '•' || c = '-' || c = '*'), wsStar, k,
      wsStar, reStr ":", wsStar, .grp (rePlus notNl)]⟩,
    ⟨true, false, reSeqList [rePlus (.cls jsDigit), reStr ".", wsStar, k, wsStar, reStr ":",
      wsStar, .grp (rePlus notNl)]⟩ ]

/-- The three number-with-unit patterns applied to a sentence during the
final fallback, in source order. -/
def numberUnitPatterns : List JSPattern :=
  let num := reSeqList [rePlus (.cls jsDigit), reOpt (reSeqList [reStr ".",
    rePlus (.cls jsDigit)])]
  [ ⟨true, false, .grp (reSeqList [num, wsStar,
      reAltList [reStr "g", reStr "mg", reStr "kcal", reStr "calories", reStr "cal"],
      reOpt (reStr "/serving")])⟩,
    ⟨true, false, .grp (reSeqList [num, wsStar,
      reAltList [reStr "grams", reStr "gram", reStr "milligrams", reStr "milligram"]])⟩,
    ⟨true, false, .grp (reSeqList [num, wsStar, reAltList [reStr "%", reStr "percent"]])⟩ ]

/-- The sentence separator `/\.(?:\s+|\n)/` used by the fallback scan. -/
def sentSplit : JSPattern :=
  ⟨false, false, reSeqList [reStr ".", .alt wsPlus (reStr "\n")]⟩

/-- The inner pattern loops of `extractFromResponse`: try each pattern in
order, returning the first whose group 1 trims to a nonempty string
(`if (match && match[1].trim()) return match[1].trim()`). -/
def tryPatterns (text : List Char) : List JSPattern → Option (List Char)
  | [] => none
  | p :: ps =>
      match patMatch p text with
      | some (_, some g1) =>
          if jsTrim g1 != [] then some (jsTrim g1) else tryPatterns text ps
      | some (_, none) => tryPatterns text ps
      | none => tryPatterns text ps

/-- The `numberWithUnitMatches` step: the first of the three patterns
that matches the sentence yields `match[0].trim()`. -/
def sentenceNumber (sentence : List Char) : Option (List Char) :=
  numberUnitPatterns.findSome? fun p =>
    match patMatch p sentence with
    | some (m0, _) => if m0 != [] then some (jsTrim m0) else none
    | none => none

/-- The per-sentence loop of the fallback scan: for the first sentence
containing the key (case-insensitively), return a number-with-unit token
if one occurs, otherwise the whole trimmed sentence when it is shorter
than 100 characters; longer key-bearing sentences are skipped. -/
def sentenceScanLoop (key : List Char) : List (List Char) → Option (List Char)
  | [] => none
  | sentence :: rest =>
      if listIncludes (jsToLower key) (jsToLower sentence) then
        match sentenceNumber sentence with
        | some v => some v
        | none =>
            if sentence.length < 100 then some (jsTrim sentence)
            else sentenceScanLoop key rest
      else sentenceScanLoop key rest

/-- The sentence-scanning fallback for one key, guarded by
`lowerText.includes(key.toLowerCase())`. -/
def sentenceScan (text key : List Char) : Option (List Char) :=
  if listIncludes (jsToLower key) (jsToLower text) then
    sentenceScanLoop key (jsSplit sentSplit text)
  else none

/-- What `extractFromResponse` does for a single candidate key: the
structural family, then the bullet family, then the sentence scan. -/
def extractForKey (text key : List Char) : Option (List Char) :=
  match tryPatterns text (structuralPatterns key) with
  | some v => some v
  | none =>
      match tryPatterns text (bulletPatterns key) with
      | some v => some v
      | none => sentenceScan text key

/-- The `for (const key of keys)` loop of `extractFromResponse`: for each
key in order, all three pattern families are exhausted (with early
return) before the next key is considered. -/
def extractLoop (text : List Char) : List (List Char) → Option (List Char)
  | [] => none
  | key :: rest =>
      match tryPatterns text (structuralPatterns key) with
      | some v => some v
      | none =>
          match tryPatterns text (bulletPatterns key) with
          | some v => some v
          | none =>
              match sentenceScan text key with
              | some v => some v
              | none => extractLoop text rest

/-- Source `extractFromResponse(text, primaryKey, ...alternateKeys)`. -/
def extractFromResponse (text primaryKey : String) (alternateKeys : List String) :
    Option String :=
  (extractLoop text.data (primaryKey.data :: alternateKeys.map String.data)).map
    fun l => ⟨l⟩

/-- Modelled from the spec: the spec's §4.3 tie-break order, in which a
whole pattern *family* is exhausted across **all** candidate keys before
the next family is tried ("If no structural pattern matches any key,
falls back to bullet/numbered-list patterns", and sentence scanning only
after that).  This is the comparison point for the refinement claim
about the extractor's tie-break order; the families themselves are the
ones from the source. -/
def extractSpecOrder (text primaryKey : String) (alternateKeys : List String) :
    Option String :=
  let keys := primaryKey.data :: alternateKeys.map String.data
  let t := text.data
  match keys.findSome? (fun k => tryPatterns t (structuralPatterns k)) with
  | some v => some ⟨v⟩
  | none =>
      match keys.findSome? (fun k => tryPatterns t (bulletPatterns k)) with
      | some v => some ⟨v⟩
      | none => (keys.findSome? (fun k => sentenceScan t k)).map fun l => ⟨l⟩

/-! ## The product-analysis pipeline (`analyzeProductImage`) -/

/-- Source `[A-Z]`. -/
def upperAZ (c : Char) : Bool := 'A' ≤ c && c ≤ 'Z'

/-- Source `[A-Za-z0-9 ]`. -/
def alnumSpace (c : Char) : Bool :=
  ('A' ≤ c && c ≤ 'Z') || ('a' ≤ c && c ≤ 'z') || jsDigit c || c = ' '

/-- Source `[^\n.,]`. -/
def notNlDotComma : RE := .cls fun c => c != '\n' && c != '.' && c != ','

/-- Source `namePatterns`: the fallback product-name patterns, in source order.
The last one carries no `i` flag and is case-sensitive. -/
def namePatterns : List JSPattern :=
  [ ⟨true, false, reSeqList [reStr "Product",
      reOpt (reSeqList [reOpt (.cls jsSpace), reStr "Name"]), reStr ":", wsStar,
      .grp (rePlus notNl)]⟩,
    ⟨true, false, reSeqList [reStr "This is ", .alt (reStr "a") (reStr "an"), wsPlus,
      .grp (rePlus notNlDotComma)]⟩,
    ⟨true, false, reSeqList [reStr "I can see ", .alt (reStr "a") (reStr "an"), wsPlus,
      .grp (rePlus notNlDotComma)]⟩,
    ⟨true, false, reSeqList [reStr "The image shows ", .alt (reStr "a") (reStr "an"), wsPlus,
      .grp (rePlus notNlDotComma)]⟩,
    ⟨true, false, reSeqList [reStr "This ", .alt (reStr "is") (reStr "appears to be"),
      reStr " ", .alt (reStr "a") (reStr "an"), wsPlus, .grp (rePlus notNlDotComma)]⟩,
    ⟨false, false, .grp (reSeqList [.cls upperAZ, rePlus (.cls alnumSpace), reStr " ",
      reAltList [reStr "cereal", reStr "chips", reStr "snacks", reStr "drink",
        reStr "beverage", reStr "food", reStr "product"]])⟩ ]

/-- The lookahead `(?=\n\n|\n[A-Z]|Nutritional Information:|$)` shared by
the first two `paragraphPatterns`. -/
def paraLookTail : RE :=
  .look (reAltList [reStr "\n\n", reSeqList [reStr "\n", .cls upperAZ],
    reStr "Nutritional Information:", .eos])

/-- Source `paragraphPatterns`: the description fallback patterns, in source
order (all with the `i` flag). -/
def paragraphPatterns : List JSPattern :=
  [ ⟨true, false, reSeqList [reStr "Description:", rePlus (.cls jsSpace),
      .grp (reLazyPlus anyChar), paraLookTail]⟩,
    ⟨true, false, reSeqList [reStr "This product is ", .grp (reLazyPlus anyChar),
      paraLookTail]⟩,
    ⟨true, false, reSeqList [.grp (reLazyPlus anyChar),
      .look (reAltList [reStr "\nNutritional Information:", reStr "Nutrition Facts:",
        reStr "Calories:", .eos])]⟩ ]

/-- The `paragraphPatterns` loop: accepts a match whose group 1 trims
nonempty **and** whose untrimmed group is longer than 20 characters
(`if (match && match[1]?.trim() && match[1].length > 20)`). -/
def tryParagraphPatterns (text : List Char) : List JSPattern → Option (List Char)
  | [] => none
  | p :: ps =>
      match patMatch p text with
      | some (_, some g1) =>
          if jsTrim g1 != [] && g1.length > 20 then some (jsTrim g1)
          else tryParagraphPatterns text ps
      | some (_, none) => tryParagraphPatterns text ps
      | none => tryParagraphPatterns text ps

/-- The paragraph separator `/\n\s*\n/`. -/
def paraSplit : JSPattern :=
  ⟨false, false, reSeqList [reStr "\n", wsStar, reStr "\n"]⟩

/-- The first-sentence separator `/[.!?]/`. -/
def sentencePunct : JSPattern :=
  ⟨false, false, .cls fun c => c = '.' || c = '!' || c = '?'⟩

/-- The structured description extraction: first paragraph that mentions
none of the nutrition keywords and is longer than 40 characters. -/
def descParagraphLoop : List (List Char) → Option (List Char)
  | [] => none
  | p :: rest =>
      let lower := jsToLower p
      if !listIncludes "calorie".data lower && !listIncludes "nutrition".data lower &&
          !listIncludes "protein".data lower && !listIncludes "fat".data lower &&
          !listIncludes "carb".data lower && decide (p.length > 40) then
        some (jsTrim p)
      else descParagraphLoop rest

/-- Product-name fallbacks: `namePatterns` in order, then the first
sentence of the response when it is longer than 10 characters, then the
literal `"Unknown Product"`. -/
def nameFallback (text : List Char) : List Char :=
  match tryPatterns text namePatterns with
  | some v => v
  | none =>
      let firstSentence := (jsSplit sentencePunct text).headD []
      if !firstSentence.isEmpty && decide (firstSentence.length > 10) then jsTrim firstSentence
      else "Unknown Product".data

/-- Source `productName` resolution of `analyzeProductImage` (the keyed
extraction, falling back when its result is falsy). -/
def resolveProductName (text : List Char) : List Char :=
  match extractLoop text ["product name".data, "product".data, "name".data, "brand".data] with
  | some v => if v.isEmpty then nameFallback text else v
  | none => nameFallback text

/-- Description fallbacks: `paragraphPatterns`, then the paragraph scan,
then the whole response text. -/
def descFallback (text : List Char) : List Char :=
  match tryParagraphPatterns text paragraphPatterns with
  | some v => v
  | none =>
      match descParagraphLoop (jsSplit paraSplit text) with
      | some v => v
      | none => text

/-- Source `description` resolution of `analyzeProductImage`. -/
def resolveDescription (text : List Char) : List Char :=
  match extractLoop text ["description".data, "product description".data,
      "about this product".data, "overview".data] with
  | some v => if v.isEmpty then descFallback text else v
  | none => descFallback text

/-- Source `interface NutritionalInfo` of `productService.ts` (also the shape
returned by `analyzeProductImage`). -/
structure NutritionalInfo where
  calories : String
  fats : String
  carbs : String
  proteins : String
  deriving DecidableEq, Repr

/-- The return shape of `analyzeProductImage`. -/
structure AnalysisResult where
  productName : String
  description : String
  nutritionalInfo : Option NutritionalInfo
  deriving DecidableEq, Repr

/-- Source `x || 'Not available'` applied to a `string | null` extraction
result (both `null` and the empty string are replaced). -/
def jsOrNotAvailable (o : Option (List Char)) : String :=
  match o with
  | some v => if v.isEmpty then "Not available" else ⟨v⟩
  | none => "Not available"

/-- Lines 279–376 of the pipeline: turn the raw response text into the
structured result object. -/
def parseAnalysis (responseText : List Char) : AnalysisResult :=
  { productName := ⟨resolveProductName responseText⟩
    description := ⟨resolveDescription responseText⟩
    nutritionalInfo := some
      { calories := jsOrNotAvailable (extractLoop responseText
          ["calories".data, "caloric content".data, "energy".data])
        fats := jsOrNotAvailable (extractLoop responseText
          ["fats".data, "fat".data, "fat content".data, "total fat".data])
        carbs := jsOrNotAvailable (extractLoop responseText
          ["carbohydrates".data, "carbs".data, "carb".data, "total carbohydrates".data])
        proteins := jsOrNotAvailable (extractLoop responseText
          ["proteins".data, "protein".data, "protein content".data]) } }

/-- The chat completion returned by the model endpoint, collapsed to the
one field the source reads: `choices[0]?.message?.content` (the optional
chain yields `none` when any link is absent).  A resolved completion is
an object and therefore always truthy for the executor's hit test. -/
structure ChatResponse where
  content : Option String

/-- The external world of `analyzeProductImage`: the credential
environment variable, the remote upload (the `fetch`/`blob`/
`uploadBytes`/`getDownloadURL` chain, collapsed to its outcome), the
local base64 file read (`FileSystem.readAsStringAsync`), the model
endpoint (per invocation), `Date.now()`, and the shared response
cache. -/
structure Env where
  apiKey : Option String
  remoteUpload : String → Except JSVal String
  readBase64 : String → Except JSVal String
  modelCall : Nat → Except JSVal ChatResponse
  now : Nat
  cache : Cache ChatResponse

/-- Source `imageToBase64(uri)`: reads the file, rethrowing any failure. -/
def imageToBase64 (env : Env) (uri : String) : Except JSVal String :=
  env.readBase64 uri

/-- Source `uploadImageToFirebase(uri)`: on any remote failure falls back to
`` `data:image/jpeg;base64,${await imageToBase64(uri)}` ``; only a
failure of that fallback read escapes. -/
def uploadImageToFirebase (env : Env) (uri : String) : Except JSVal String :=
  match env.remoteUpload uri with
  | .ok url => .ok url
  | .error _ =>
      match imageToBase64 env uri with
      | .ok b64 => .ok ("data:image/jpeg;base64," ++ b64)
      | .error e => .error e

/-- Observable outcome of one `analyzeProductImage` call: the returned
object, the exception (if any) that reached the outer `catch`, how many
times the remote upload was attempted, how many times the model endpoint
was invoked, and the backoff waits performed. -/
structure PipelineOut where
  result : AnalysisResult
  caught : Option JSVal
  uploadCalls : Nat
  modelCalls : Nat
  waits : List Nat

/-- The sentinel returned by the outer `catch` of
`analyzeProductImage`. -/
def sentinelResult : AnalysisResult :=
  { productName := "Unknown Product"
    description := "Unable to analyze the product image at this time. Please try again later."
    nutritionalInfo := none }

/-- The message of the configuration error thrown when the API key is
absent. -/
def apiKeyMsg : String :=
  "OpenAI API key is missing. Please check your configuration."

/-- Source `analyzeProductImage(imageUri)`.  The `try` block checks the
credential, uploads the image, calls the model through `withRetry`
(keyed by `generateCacheKey('analyzeProductImage', imageUri)`), and
parses the response; the outer `catch` turns any thrown error into the
sentinel result.  The prompt messages sent with the upload URL do not
influence the modelled response, which is external input. -/
def analyzeProductImage (env : Env) (imageUri : String) : PipelineOut :=
  if !jsStrOptTruthy env.apiKey then
    { result := sentinelResult, caught := some (.vErr apiKeyMsg)
      uploadCalls := 0, modelCalls := 0, waits := [] }
  else
    let cacheKey := generateCacheKey "analyzeProductImage" imageUri
    match uploadImageToFirebase env imageUri with
    | .error e =>
        { result := sentinelResult, caught := some e
          uploadCalls := 1, modelCalls := 0, waits := [] }
    | .ok _imageUrl =>
        let out := withRetry (fun _ => true) env.modelCall (some cacheKey) 5 env.now env.cache
        match out.result with
        | .error e =>
            { result := sentinelResult, caught := some e
              uploadCalls := 1, modelCalls := out.calls, waits := out.waits }
        | .ok resp =>
            let responseText : List Char :=
              match resp.content with
              | some s => jsTrim s.data
              | none => []
            { result := parseAnalysis responseText, caught := none
              uploadCalls := 1, modelCalls := out.calls, waits := out.waits }

/-! ## The history store (`productService.ts`) -/

/-- Source `interface RecallInfo`. -/
structure RecallInfo where
  isRecalled : Bool
  productName : String
  manufacturer : String
  lotNumber : String
  recallDate : String
  recallReason : String
  deriving DecidableEq, Repr

/-- Source `interface ProductDetails` (the `scanDate : Date` is its epoch
time). -/
structure ProductDetails where
  recallInfo : RecallInfo
  nutritionalInfo : Option NutritionalInfo
  description : Option String
  imageUri : Option String
  scanDate : Nat
  deriving DecidableEq, Repr

/-- A document of the `scanHistory` Firestore collection
(`firestoreData`); timestamps are epoch times. -/
structure FirestoreDoc where
  userId : String
  recallInfo : RecallInfo
  nutritionalInfo : Option NutritionalInfo
  description : String
  imageUri : String
  scanDate : Nat
  createdAt : Nat
  deriving DecidableEq, Repr

/-- A record of the local AsyncStorage fallback list (`localScanData`);
its ISO date strings are modelled by the epoch times they denote (the
ISO round-trip is injective on instants). -/
structure LocalScan where
  userId : String
  recallInfo : RecallInfo
  nutritionalInfo : Option NutritionalInfo
  description : String
  imageUri : String
  scanDate : Nat
  createdAt : Nat
  id : String
  deriving DecidableEq, Repr

/-- The two persistent stores: the Firestore `scanHistory` collection
and AsyncStorage, the latter modelled in parsed form (key ↦ the list the
stored JSON string decodes to). -/
structure HistoryStore where
  firestore : List FirestoreDoc
  localHist : String → Option (List LocalScan)

/-- Success/failure of each external storage operation during one call,
plus the clock. -/
structure StoreEnv where
  addDocOk : Bool
  getItemOk : Bool
  setItemOk : Bool
  queryOk : Bool
  now : Nat

/-- The AsyncStorage key `` `scanHistory_${userId}` ``. -/
def histKey (userId : String) : String := "scanHistory_" ++ userId

/-- Source `saveScanHistory(userId, productDetails)`: a logged no-op when
`userId` is falsy; otherwise tries the Firestore write and, when it
fails, appends to the per-user local list (each local step silently
absorbing its own failure).  No branch throws, so the function always
returns a store. -/
def saveScanHistory (env : StoreEnv) (store : HistoryStore) (userId : String)
    (pd : ProductDetails) : HistoryStore :=
  if userId = "" then store
  else
    let fsData : FirestoreDoc :=
      { userId := userId, recallInfo := pd.recallInfo
        nutritionalInfo := pd.nutritionalInfo
        description := pd.description.getD "", imageUri := pd.imageUri.getD ""
        scanDate := pd.scanDate, createdAt := env.now }
    if env.addDocOk then
      { store with firestore := store.firestore ++ [fsData] }
    else if env.getItemOk then
      let prev := (store.localHist (histKey userId)).getD []
      let localData : LocalScan :=
        { userId := userId, recallInfo := pd.recallInfo
          nutritionalInfo := pd.nutritionalInfo
          description := pd.description.getD "", imageUri := pd.imageUri.getD ""
          scanDate := pd.scanDate, createdAt := env.now
          id := "local_" ++ toString env.now }
      if env.setItemOk then
        { store with localHist := fun k =>
            if k = histKey userId then some (prev ++ [localData]) else store.localHist k }
      else store
    else store

/-- The sort comparator `(a, b) => b.scanDate.getTime() -
a.scanDate.getTime()` as the induced "comes before or equal" relation:
`a` may precede `b` exactly when the comparator is ≤ 0, i.e. newest
first. -/
def scanDesc (a b : ProductDetails) : Bool :=
  decide (b.scanDate ≤ a.scanDate)

/-- Reading a Firestore document back into `ProductDetails`
(`data.description || undefined` turns the empty string into
absence). -/
def docToDetails (d : FirestoreDoc) : ProductDetails :=
  { recallInfo := d.recallInfo
    nutritionalInfo := d.nutritionalInfo
    description := if d.description = "" then none else some d.description
    imageUri := if d.imageUri = "" then none else some d.imageUri
    scanDate := d.scanDate }

/-- Reading a local record back into `ProductDetails` (same `||
undefined` conversions). -/
def localToDetails (it : LocalScan) : ProductDetails :=
  { recallInfo := it.recallInfo
    nutritionalInfo := it.nutritionalInfo
    description := if it.description = "" then none else some it.description
    imageUri := if it.imageUri = "" then none else some it.imageUri
    scanDate := it.scanDate }

/-- Source `getScanHistory(userId)`: the Firestore query filtered by `userId`,
sorted newest first; on query failure the parsed local list, sorted the
same way; a missing local entry gives `[]`; any remaining failure (a
failing `getItem` reaching the outer catch) gives `[]`. -/
def getScanHistory (env : StoreEnv) (store : HistoryStore) (userId : String) :
    List ProductDetails :=
  if env.queryOk then
    ((store.firestore.filter fun d => d.userId == userId).map docToDetails).mergeSort scanDesc
  else if env.getItemOk then
    match store.localHist (histKey userId) with
    | none => []
    | some items => (items.map localToDetails).mergeSort scanDesc
  else []

/-! ## Concrete instances used by the witnesses below -/

/-- A cache holding one truthy entry stored at time 0 under key `"k"`. -/
def wCache : Cache JSVal :=
  fun s => if s = "k" then some ⟨0, .vObj 1⟩ else none

/-- An environment in which every external call fails. -/
def envFailAll : Env :=
  { apiKey := some "sk", remoteUpload := fun _ => .error (.vErr "storage/unknown")
    readBase64 := fun _ => .error (.vErr "fs"), modelCall := fun _ => .error (.vErr "api")
    now := 0, cache := emptyCache }

/-- An environment in which the remote upload fails but the local base64
read succeeds. -/
def envUpFail : Env :=
  { envFailAll with readBase64 := fun _ => .ok "QUJD" }

/-- An environment with the API credential absent. -/
def envNoKey : Env :=
  { envFailAll with apiKey := none }

/-- A sample recall record. -/
def riSample : RecallInfo :=
  ⟨false, "Acme Oats", "", "", "", ""⟩

/-- A sample scan. -/
def pdSample : ProductDetails :=
  ⟨riSample, some ⟨"150kcal", "3g", "27g", "5g"⟩, some "desc", some "uri", 500⟩

/-- Storage environment in which every operation succeeds. -/
def stEnvAll : StoreEnv := ⟨true, true, true, true, 42⟩

/-- Storage environment in which the Firestore write fails. -/
def stEnvLocalSave : StoreEnv := ⟨false, true, true, true, 42⟩

/-- Storage environment in which the Firestore query fails. -/
def stEnvLocalRead : StoreEnv := ⟨true, true, true, false, 42⟩

/-- The empty history store. -/
def st0 : HistoryStore := ⟨[], fun _ => none⟩

/-- The input exhibiting the extractor's key-major tie-break: the first
key matches only a bullet pattern, the second key matches a structural
pattern. -/
def c5Text : String := "- calories 100\nenergy: 200"

/-! ## Helper lemmas (shared) -/

/-- With at least one attempt of fuel, the retry loop invokes the wrapped
operation at least once. -/
theorem retryLoop_calls_pos {V : Type} (fn : Nat → Except JSVal V) (ck : Option String)
    (m now : Nat) (cache : Cache V) (retries fuel : Nat) :
    1 ≤ (retryLoop fn ck m now cache retries (fuel + 1)).calls := by
  simp only [retryLoop]
  split
  · simp
  · split
    · simp
    · simp

/-- Every retry index recorded in the loop's wait list lies strictly
above the entry value of `retries` and never exceeds `maxRetries`. -/
theorem retryLoop_waits_bounds {V : Type} (fn : Nat → Except JSVal V) (ck : Option String)
    (m now : Nat) :
    ∀ (fuel retries : Nat) (cache : Cache V) (n : Nat),
      n ∈ (retryLoop fn ck m now cache retries fuel).waits →
      retries + 1 ≤ n ∧ n ≤ m := by
  intro fuel
  induction fuel with
  | zero =>
      intro retries cache n h
      simp [retryLoop] at h
  | succ fuel ih =>
      intro retries cache n h
      simp only [retryLoop] at h
      split at h
      · simp at h
      · split at h
        · simp at h
        · rename_i hlt
          simp only [List.mem_cons] at h
          rcases h with h | h
          · omega
          · have := ih (retries + 1) cache n h
            omega

/-- Wait-list bounds lifted through `withRetry`. -/
theorem withRetry_waits_bounds {V : Type} (tr : V → Bool) (fn : Nat → Except JSVal V)
    (ck : Option String) (m now : Nat) (cache : Cache V) (n : Nat)
    (h : n ∈ (withRetry tr fn ck m now cache).waits) :
    1 ≤ n ∧ n ≤ m := by
  simp only [withRetry] at h
  split at h
  · simp at h
  · exact retryLoop_waits_bounds fn ck m now (m + 1) 0 cache n h

/-- When the key is nonempty and the lookup yields a truthy value,
`withRetry` returns it without touching the loop. -/
theorem withRetry_hit {V : Type} (tr : V → Bool) (fn : Nat → Except JSVal V)
    (k : String) (m now : Nat) (cache : Cache V) (v : V)
    (hk : k ≠ "") (hg : getCachedResponse cache now k = some v) (htr : tr v = true) :
    withRetry tr fn (some k) m now cache = ⟨.ok v, 0, [], cache⟩ := by
  simp [withRetry, hk, hg, htr]

/-- When the lookup yields nothing truthy, `withRetry` runs the full
retry loop. -/
theorem withRetry_miss {V : Type} (tr : V → Bool) (fn : Nat → Except JSVal V)
    (k : String) (m now : Nat) (cache : Cache V)
    (hk : k ≠ "") (h : ∀ v, getCachedResponse cache now k = some v → tr v = false) :
    withRetry tr fn (some k) m now cache =
      retryLoop fn (some k) m now cache 0 (m + 1) := by
  simp only [withRetry]
  cases hg : getCachedResponse cache now k with
  | none => simp [hk, hg]
  | some v =>
      have := h v hg
      simp [hk, hg, this]

/-- The source's key-major loop equals `findSome?` of the per-key
extraction. -/
theorem extractLoop_eq_findSome (text : List Char) (keys : List (List Char)) :
    extractLoop text keys = keys.findSome? (extractForKey text) := by
  induction keys with
  | nil => rfl
  | cons k rest ih =>
      simp only [extractLoop, extractForKey, List.findSome?]
      cases tryPatterns text (structuralPatterns k) with
      | some v => rfl
      | none =>
          cases tryPatterns text (bulletPatterns k) with
          | some v => rfl
          | none =>
              cases sentenceScan text k with
              | some v => rfl
              | none => exact ih

/-- Sorting with the descending comparator yields a newest-first list. -/
theorem mergeSort_scanDesc_sorted (l : List ProductDetails) :
    List.Sorted (fun a b => b.scanDate ≤ a.scanDate) (l.mergeSort scanDesc) := by
  have htrans : ∀ a b c : ProductDetails, scanDesc a b = true → scanDesc b c = true →
      scanDesc a c = true := by
    intro a b c h1 h2
    simp only [scanDesc, decide_eq_true_eq] at *
    omega
  have htotal : ∀ a b : ProductDetails, (scanDesc a b || scanDesc b a) = true := by
    intro a b
    simp only [scanDesc, Bool.or_eq_true, decide_eq_true_eq]
    omega
  exact (@List.sorted_mergeSort _ scanDesc htrans htotal l).imp fun hab =>
    of_decide_eq_true hab

/-! ## Claim C1 -/

/-- C1, as stated, is false of the code: the hit test `if (cached)` uses
truthiness, so a cached **falsy** success is not returned.  Concretely:
an execution with key `"k"` succeeds at time 1000 with response `false`
(which is cached), yet a call with the same key one second later invokes
the underlying operation again (`calls = 1`) and returns that second
operation's value instead of the cached response. -/
theorem c1_counterexample :
    (withRetry JSVal.truthy (fun _ => .ok (.vBool false)) (some "k") 5 1000
      emptyCache).cache "k" = some ⟨1000, .vBool false⟩ ∧
    (withRetry JSVal.truthy (fun _ => .ok (.vNum 7)) (some "k") 5 2000
      (withRetry JSVal.truthy (fun _ => .ok (.vBool false)) (some "k") 5 1000
        emptyCache).cache).calls = 1 ∧
    (withRetry JSVal.truthy (fun _ => .ok (.vNum 7)) (some "k") 5 2000
      (withRetry JSVal.truthy (fun _ => .ok (.vBool false)) (some "k") 5 1000
        emptyCache).cache).result = .ok (.vNum 7) :=
  ⟨rfl, rfl, rfl⟩

/-- C1 (amended): for a **truthy** cached response under a nonempty key,
a call within 24 hours of the stored timestamp returns the cached
response immediately — zero invocations of the operation, no backoff
waits, cache unchanged — while an entry aged 24 hours or more is treated
as absent (the lookup yields `none` and the call runs the full retry
loop as if no entry existed). -/
theorem c1_cache_hit_truthy {V : Type} (tr : V → Bool) (fn : Nat → Except JSVal V)
    (k : String) (m now t : Nat) (r : V) (c : Cache V)
    (hk : k ≠ "") (hc : c k = some ⟨t, r⟩) :
    ((now : Int) - (t : Int) < (CACHE_EXPIRY : Int) → tr r = true →
      withRetry tr fn (some k) m now c = ⟨.ok r, 0, [], c⟩) ∧
    ((CACHE_EXPIRY : Int) ≤ (now : Int) - (t : Int) →
      getCachedResponse c now k = none ∧
      withRetry tr fn (some k) m now c =
        retryLoop fn (some k) m now c 0 (m + 1)) := by
  constructor
  · intro hage htr
    have hg : getCachedResponse c now k = some r := by
      simp [getCachedResponse, hc, hage]
    exact withRetry_hit tr fn k m now c r hk hg htr
  · intro hage
    have hnone : getCachedResponse c now k = none := by
      simp only [getCachedResponse, hc]
      rw [if_neg (by omega)]
    refine ⟨hnone, ?_⟩
    exact withRetry_miss tr fn k m now c hk fun v hv => by
      rw [hnone] at hv
      cases hv

/-- Witness for C1 (amended): the truthy entry of `wCache`, read 1000 ms
after it was stored, is returned without invoking the operation. -/
theorem c1_cache_hit_truthy_witness :
    withRetry JSVal.truthy (fun _ => .ok JSVal.vNull) (some "k") 5 1000 wCache =
      ⟨.ok (.vObj 1), 0, [], wCache⟩ :=
  (c1_cache_hit_truthy JSVal.truthy (fun _ => .ok JSVal.vNull) "k" 5 1000 0
    (.vObj 1) wCache (by decide) rfl).1 (by decide) rfl

/-! ## Claim C2 -/

/-- C2: every backoff wait actually performed by a `withRetry` run with
the default budget `maxRetries = 5` is computed by `getBackoffTime n` for
a retry index `1 ≤ n ≤ 5`, and for every jitter draw `u ∈ [0,1]` that
wait lies in `[2^n * 0.5 * 1000, 2^n * 1.5 * 1000]` ms and never exceeds
the 30000 ms cap. -/
theorem c2_backoff_bounds {V : Type} (tr : V → Bool) (fn : Nat → Except JSVal V)
    (ck : Option String) (now : Nat) (cache : Cache V) (n : Nat)
    (hn : n ∈ (withRetry tr fn ck 5 now cache).waits)
    (u : ℚ) (hu0 : 0 ≤ u) (hu1 : u ≤ 1) :
    1 ≤ n ∧ n ≤ 5 ∧
    (2 : ℚ) ^ n * (1 / 2) * 1000 ≤ getBackoffTime n u ∧
    getBackoffTime n u ≤ (2 : ℚ) ^ n * (3 / 2) * 1000 ∧
    getBackoffTime n u ≤ 30000 := by
  obtain ⟨h1, h5⟩ := withRetry_waits_bounds tr fn ck 5 now cache n hn
  have hp : (0 : ℚ) < 2 ^ n := by positivity
  have h2n : (2 : ℚ) ^ n ≤ 2 ^ 5 := by
    apply pow_le_pow_right₀ (by norm_num) h5
  refine ⟨h1, h5, ?_, ?_, ?_⟩
  · apply le_min
    · nlinarith
    · nlinarith
  · exact le_trans (min_le_left _ _) (by nlinarith)
  · exact min_le_right _ _

/-- Witness for C2: an always-failing operation with the default budget
waits exactly for retries 1–5; retry 2 with jitter draw 1/2 is in
bounds. -/
theorem c2_backoff_bounds_witness :
    1 ≤ 2 ∧ 2 ≤ 5 ∧
    (2 : ℚ) ^ 2 * (1 / 2) * 1000 ≤ getBackoffTime 2 (1 / 2) ∧
    getBackoffTime 2 (1 / 2) ≤ (2 : ℚ) ^ 2 * (3 / 2) * 1000 ∧
    getBackoffTime 2 (1 / 2) ≤ 30000 :=
  c2_backoff_bounds JSVal.truthy (fun _ => .error (.vErr "boom")) none 0 emptyCache 2
    (by decide) (1 / 2) (by norm_num) (by norm_num)

/-! ## Claim C10 -/

/-- C10: a falsy successful result (here an arbitrary `r` with
`r.truthy = false`) **is** stored in the cache by a keyed execution, yet
a subsequent call with the same key within the 24-hour window does not
treat the entry as a hit and invokes the underlying operation again,
because both the lookup's return and the caller's hit test use
truthiness. -/
theorem c10_falsy_cache_miss (k : String) (r : JSVal) (c : Cache JSVal)
    (fn fn2 : Nat → Except JSVal JSVal) (m m2 now now2 : Nat)
    (hk : k ≠ "") (hr : r.truthy = false) (hc : c k = none) (hfn : fn 0 = .ok r)
    (hwin : (now2 : Int) - (now : Int) < (CACHE_EXPIRY : Int)) :
    (withRetry JSVal.truthy fn (some k) m now c).cache k = some ⟨now, r⟩ ∧
    1 ≤ (withRetry JSVal.truthy fn2 (some k) m2 now2
        (withRetry JSVal.truthy fn (some k) m now c).cache).calls := by
  have hcache : (withRetry JSVal.truthy fn (some k) m now c).cache =
      setCachedResponse c now k r := by
    simp [withRetry, getCachedResponse, hc, hk, retryLoop, hfn, maybeCache]
  have hentry : (withRetry JSVal.truthy fn (some k) m now c).cache k = some ⟨now, r⟩ := by
    rw [hcache]
    simp [setCachedResponse]
  refine ⟨hentry, ?_⟩
  have hlook : getCachedResponse (withRetry JSVal.truthy fn (some k) m now c).cache
      now2 k = some r := by
    simp [getCachedResponse, hentry, hwin]
  rw [withRetry_miss JSVal.truthy fn2 k m2 now2 _ hk fun v hv => by
    rw [hlook] at hv
    cases hv
    exact hr]
  exact retryLoop_calls_pos fn2 (some k) m2 now2 _ 0 m2

/-- Witness for C10: caching the falsy value `0` under key `"k"` and
calling again 1 ms later re-invokes the operation. -/
theorem c10_falsy_cache_miss_witness :
    (withRetry JSVal.truthy (fun _ => .ok (.vNum 0)) (some "k") 5 100
      emptyCache).cache "k" = some ⟨100, .vNum 0⟩ ∧
    1 ≤ (withRetry JSVal.truthy (fun _ => .ok (.vNum 0)) (some "k") 5 101
        (withRetry JSVal.truthy (fun _ => .ok (.vNum 0)) (some "k") 5 100
          emptyCache).cache).calls :=
  c10_falsy_cache_miss "k" (.vNum 0) emptyCache (fun _ => .ok (.vNum 0))
    (fun _ => .ok (.vNum 0)) 5 5 100 101 (by decide) rfl rfl rfl (by decide)

/-! ## Pipeline branch lemmas (shared) -/

/-- With a falsy credential the pipeline short-circuits to the caught
configuration error. -/
theorem analyzeProductImage_noKey (env : Env) (uri : String)
    (h : jsStrOptTruthy env.apiKey = false) :
    analyzeProductImage env uri =
      { result := sentinelResult, caught := some (.vErr apiKeyMsg)
        uploadCalls := 0, modelCalls := 0, waits := [] } := by
  simp [analyzeProductImage, h]

/-- With a truthy credential and a failed upload (both the remote store
and the base64 fallback), the pipeline catches the upload error. -/
theorem analyzeProductImage_uploadErr (env : Env) (uri : String) (e : JSVal)
    (hkey : jsStrOptTruthy env.apiKey = true)
    (h : uploadImageToFirebase env uri = .error e) :
    analyzeProductImage env uri =
      { result := sentinelResult, caught := some e
        uploadCalls := 1, modelCalls := 0, waits := [] } := by
  simp [analyzeProductImage, hkey, h]

/-- With a truthy credential, a successful upload and a model call that
fails after exhausting retries, the pipeline catches the model error. -/
theorem analyzeProductImage_modelErr (env : Env) (uri url : String) (e : JSVal)
    (hkey : jsStrOptTruthy env.apiKey = true)
    (hup : uploadImageToFirebase env uri = .ok url)
    (hm : (withRetry (fun _ => true) env.modelCall
      (some (generateCacheKey "analyzeProductImage" uri)) 5 env.now env.cache).result =
      .error e) :
    (analyzeProductImage env uri).result = sentinelResult ∧
    (analyzeProductImage env uri).caught = some e := by
  constructor <;> simp [analyzeProductImage, hkey, hup, hm]

/-- On the fully successful path nothing is caught. -/
theorem analyzeProductImage_ok (env : Env) (uri url : String) (resp : ChatResponse)
    (hkey : jsStrOptTruthy env.apiKey = true)
    (hup : uploadImageToFirebase env uri = .ok url)
    (hm : (withRetry (fun _ => true) env.modelCall
      (some (generateCacheKey "analyzeProductImage" uri)) 5 env.now env.cache).result =
      .ok resp) :
    (analyzeProductImage env uri).caught = none := by
  simp [analyzeProductImage, hkey, hup, hm]

/-! ## Claim C3 -/

/-- C3: whenever any step of the pipeline throws (the credential check,
the upload with its failed fallback, or the model call after exhausting
retries — the parsing phase consists of total string operations and
cannot throw), `analyzeProductImage` returns exactly the sentinel
`{ productName := "Unknown Product", nutritionalInfo := none,
description := <non-empty apology> }`; no exception escapes, as the
function is total by construction with the caught error recorded
aside. -/
theorem c3_sentinel_on_failure (env : Env) (uri : String)
    (h : (analyzeProductImage env uri).caught.isSome) :
    (analyzeProductImage env uri).result = sentinelResult ∧
    sentinelResult.productName = "Unknown Product" ∧
    sentinelResult.nutritionalInfo = none ∧
    sentinelResult.description ≠ "" := by
  refine ⟨?_, rfl, rfl, by decide⟩
  cases hkey : jsStrOptTruthy env.apiKey with
  | false => rw [analyzeProductImage_noKey env uri hkey]
  | true =>
      cases hup : uploadImageToFirebase env uri with
      | error e => rw [analyzeProductImage_uploadErr env uri e hkey hup]
      | ok url =>
          cases hm : (withRetry (fun _ => true) env.modelCall
              (some (generateCacheKey "analyzeProductImage" uri)) 5 env.now
              env.cache).result with
          | error e => exact (analyzeProductImage_modelErr env uri url e hkey hup hm).1
          | ok resp =>
              rw [analyzeProductImage_ok env uri url resp hkey hup hm] at h
              simp at h

/-- Witness for C3: with the credential present but remote upload and
local read both failing, the upload error is caught and the sentinel
returned. -/
theorem c3_sentinel_on_failure_witness :
    (analyzeProductImage envFailAll "file:///img.jpg").result = sentinelResult ∧
    sentinelResult.productName = "Unknown Product" ∧
    sentinelResult.nutritionalInfo = none ∧
    sentinelResult.description ≠ "" :=
  c3_sentinel_on_failure envFailAll "file:///img.jpg" (by decide)

/-! ## Claim C4 -/

/-- C4: with the credential absent (or empty, which is equally falsy),
`analyzeProductImage` raises the configuration error immediately and
catches it itself: the result is the sentinel, the caught error is the
missing-key `Error`, the upload and the model endpoint are never invoked
and no backoff wait occurs. -/
theorem c4_missing_credential_fails_fast (env : Env) (uri : String)
    (h : jsStrOptTruthy env.apiKey = false) :
    analyzeProductImage env uri =
      { result := sentinelResult, caught := some (.vErr apiKeyMsg)
        uploadCalls := 0, modelCalls := 0, waits := [] } := by
  simp [analyzeProductImage, h]

/-- Witness for C4: the key-less environment. -/
theorem c4_missing_credential_fails_fast_witness :
    analyzeProductImage envNoKey "file:///img.jpg" =
      { result := sentinelResult, caught := some (.vErr apiKeyMsg)
        uploadCalls := 0, modelCalls := 0, waits := [] } :=
  c4_missing_credential_fails_fast envNoKey "file:///img.jpg" rfl

/-! ## Claim C5 -/

/-- C5, as stated, is false of the code: the loop is key-major, not
family-major.  On `"- calories 100\nenergy: 200"` with keys
`calories, energy`, no structural pattern matches the key `calories`,
but a structural pattern does match the candidate key `energy`
(yielding `"200"`); the code nevertheless returns `"100"`, obtained from
a *bullet* pattern for `calories` — so the bullet family was used before
structural patterns had been exhausted across all candidate keys, and
the result differs from the spec-order result. -/
theorem c5_counterexample :
    extractFromResponse c5Text "calories" ["energy"] = some "100" ∧
    extractSpecOrder c5Text "calories" ["energy"] = some "200" :=
  ⟨by decide, by decide⟩

/-- C5 (amended): the tie-break is strictly **key** order first, then
pattern-family order within each key: the loop equals `findSome?` over
the candidate keys (primary first, then alternates in order) of the
per-key extraction, which itself tries the structural family, then the
bullet family, then sentence scanning.  Being a pure function of the
input string, the result is deterministic. -/
theorem c5_key_major_order (text primaryKey : String) (alternateKeys : List String) :
    extractFromResponse text primaryKey alternateKeys =
      ((primaryKey.data :: alternateKeys.map String.data).findSome?
        (extractForKey text.data)).map fun l => (⟨l⟩ : String) := by
  unfold extractFromResponse
  rw [extractLoop_eq_findSome]

/-! ## Claim C6 -/

/-- C6: `extract("Calories: 250kcal", "calories")` yields `"250kcal"`;
`extract("no data here", "calories")` yields `null`; and whenever no
candidate key produces a match by any family, the result is `none`
(absence) — in particular never the empty string. -/
theorem c6_extract_examples_and_absence :
    extractFromResponse "Calories: 250kcal" "calories" [] = some "250kcal" ∧
    extractFromResponse "no data here" "calories" [] = none ∧
    ∀ (text primaryKey : String) (alternateKeys : List String),
      (∀ key ∈ primaryKey.data :: alternateKeys.map String.data,
        extractForKey text.data key = none) →
      extractFromResponse text primaryKey alternateKeys = none := by
  refine ⟨by decide, by decide, ?_⟩
  intro text pk alts h
  unfold extractFromResponse
  rw [extractLoop_eq_findSome, List.findSome?_eq_none_iff.mpr h]
  rfl

/-- Witness for C6's general part at a concrete no-match input. -/
theorem c6_extract_examples_and_absence_witness :
    extractFromResponse "xyz" "calories" [] = none :=
  c6_extract_examples_and_absence.2.2 "xyz" "calories" [] (by decide)

/-! ## Claim C7 -/

/-- C7: whenever the remote upload fails for any reason and the local
read succeeds, `uploadImageToFirebase` returns a string beginning with
`data:image/jpeg;base64,` rather than propagating the upload failure;
and it throws only when both the remote upload and the local read/encode
fail (any escaping error is exactly the local read's error). -/
theorem c7_upload_fallback (env : Env) (uri : String) :
    (∀ (e : JSVal) (b : String), env.remoteUpload uri = .error e →
      env.readBase64 uri = .ok b →
      ∃ rest, uploadImageToFirebase env uri = .ok ("data:image/jpeg;base64," ++ rest)) ∧
    (∀ e2 : JSVal, uploadImageToFirebase env uri = .error e2 →
      (∃ e1, env.remoteUpload uri = .error e1) ∧ env.readBase64 uri = .error e2) := by
  constructor
  · intro e b h1 h2
    refine ⟨b, ?_⟩
    unfold uploadImageToFirebase imageToBase64
    rw [h1, h2]
  · intro e2 h
    unfold uploadImageToFirebase imageToBase64 at h
    cases h1 : env.remoteUpload uri with
    | ok url =>
        rw [h1] at h
        simp at h
    | error e1 =>
        rw [h1] at h
        cases h2 : env.readBase64 uri with
        | ok b =>
            rw [h2] at h
            simp at h
        | error e3 =>
            rw [h2] at h
            simp only [Except.error.injEq] at h
            subst h
            exact ⟨⟨e1, rfl⟩, rfl⟩

/-- Witness for C7: remote upload down, local read succeeding. -/
theorem c7_upload_fallback_witness :
    ∃ rest, uploadImageToFirebase envUpFail "file:///img.jpg" =
      .ok ("data:image/jpeg;base64," ++ rest) :=
  (c7_upload_fallback envUpFail "file:///img.jpg").1 (.vErr "storage/unknown") "QUJD"
    rfl rfl

/-! ## Claim C8 -/

/-- C8: neither history-store operation raises (both are total
functions of their environment in this embedding): `save` is a no-op
when `userId` is absent, a failed Firestore write never changes the
remote collection and is absorbed (the function still returns a store,
with the record diverted to the local list), and `list` returns `[]`
for a user with zero prior saves — whichever branch runs — instead of
raising. -/
theorem c8_history_never_raises :
    (∀ (env : StoreEnv) (store : HistoryStore) (pd : ProductDetails),
      saveScanHistory env store "" pd = store) ∧
    (∀ (env : StoreEnv) (store : HistoryStore) (uid : String) (pd : ProductDetails),
      env.addDocOk = false →
      (saveScanHistory env store uid pd).firestore = store.firestore) ∧
    (∀ (env : StoreEnv) (store : HistoryStore) (uid : String),
      (∀ d ∈ store.firestore, d.userId ≠ uid) →
      store.localHist (histKey uid) = none →
      getScanHistory env store uid = []) := by
  refine ⟨?_, ?_, ?_⟩
  · intro env store pd
    simp [saveScanHistory]
  · intro env store uid pd h
    by_cases huid : uid = ""
    · simp [saveScanHistory, huid]
    · simp only [saveScanHistory, if_neg huid, h, Bool.false_eq_true, if_false]
      split
      · split
        · rfl
        · rfl
      · rfl
  · intro env store uid h1 h2
    have hf : store.firestore.filter (fun d => d.userId == uid) = [] := by
      rw [List.filter_eq_nil_iff]
      intro d hd
      simp only [beq_iff_eq]
      exact h1 d hd
    unfold getScanHistory
    split
    · simp [hf]
    · split
      · rw [h2]
      · rfl

/-- Witness for C8: an empty store lists `[]` for a fresh user. -/
theorem c8_history_never_raises_witness :
    getScanHistory stEnvAll st0 "bob" = [] :=
  c8_history_never_raises.2.2 stEnvAll st0 "bob" (by simp [st0]) rfl

/-! ## Claim C9 -/

/-- C9: for a present `userId`, `save` followed immediately by `list`
yields a list containing an entry whose `recallInfo` equals the saved
one — both when the write went to Firestore and the query reads it, and
when the write fell back to the local list and the query falls back to
reading it — and the returned list is sorted newest-first by scan time
in every branch. -/
theorem c9_save_list_roundtrip (env1 env2 : StoreEnv) (store : HistoryStore)
    (uid : String) (pd : ProductDetails) (huid : uid ≠ "") :
    (env1.addDocOk = true → env2.queryOk = true →
      ∃ q ∈ getScanHistory env2 (saveScanHistory env1 store uid pd) uid,
        q.recallInfo = pd.recallInfo) ∧
    (env1.addDocOk = false → env1.getItemOk = true → env1.setItemOk = true →
      env2.queryOk = false → env2.getItemOk = true →
      ∃ q ∈ getScanHistory env2 (saveScanHistory env1 store uid pd) uid,
        q.recallInfo = pd.recallInfo) ∧
    (∀ (env : StoreEnv) (st : HistoryStore) (u : String),
      List.Sorted (fun a b => b.scanDate ≤ a.scanDate) (getScanHistory env st u)) := by
  refine ⟨?_, ?_, ?_⟩
  · intro h1 h2
    have hsave : (saveScanHistory env1 store uid pd).firestore =
        store.firestore ++ [⟨uid, pd.recallInfo, pd.nutritionalInfo,
          pd.description.getD "", pd.imageUri.getD "", pd.scanDate, env1.now⟩] := by
      simp [saveScanHistory, huid, h1]
    refine ⟨docToDetails ⟨uid, pd.recallInfo, pd.nutritionalInfo,
      pd.description.getD "", pd.imageUri.getD "", pd.scanDate, env1.now⟩, ?_, rfl⟩
    simp only [getScanHistory, h2, if_true, hsave]
    rw [List.mem_mergeSort]
    apply List.mem_map_of_mem
    rw [List.mem_filter]
    refine ⟨List.mem_append_right _ ?_, by simp⟩
    simp
  · intro h1 h2 h3 h4 h5
    have hsave : (saveScanHistory env1 store uid pd).localHist (histKey uid) =
        some (((store.localHist (histKey uid)).getD []) ++
          [⟨uid, pd.recallInfo, pd.nutritionalInfo, pd.description.getD "",
            pd.imageUri.getD "", pd.scanDate, env1.now,
            "local_" ++ toString env1.now⟩]) := by
      simp [saveScanHistory, huid, h1, h2, h3]
    refine ⟨localToDetails ⟨uid, pd.recallInfo, pd.nutritionalInfo,
      pd.description.getD "", pd.imageUri.getD "", pd.scanDate, env1.now,
      "local_" ++ toString env1.now⟩, ?_, rfl⟩
    simp only [getScanHistory, h4, h5, Bool.false_eq_true, if_false, if_true, hsave]
    rw [List.mem_mergeSort]
    apply List.mem_map_of_mem
    exact List.mem_append_right _ (by simp)
  · intro env st u
    unfold getScanHistory
    split
    · exact mergeSort_scanDesc_sorted _
    · split
      · split
        · exact List.sorted_nil
        · exact mergeSort_scanDesc_sorted _
      · exact List.sorted_nil

/-- Witness for C9: the remote round trip on the empty store. -/
theorem c9_save_list_roundtrip_witness :
    ∃ q ∈ getScanHistory stEnvAll (saveScanHistory stEnvAll st0 "alice" pdSample) "alice",
      q.recallInfo = pdSample.recallInfo :=
  (c9_save_list_roundtrip stEnvAll stEnvAll st0 "alice" pdSample (by decide)).1 rfl rfl

end ScanRappel
